import Mathlib

/-!
Verification development for the opcode session-hook subsystem.

Shallow embedding of the Python sources under `hooks/` and proofs of the
behavioural properties stated in the specification.  Python dictionaries are
modelled as association lists with unique keys (JSON objects cannot carry
duplicate keys), floats used only as opaque timestamps are modelled as `Int`
ticks, ISO timestamp strings as opaque `String` parameters, and the external
LLM call as an `Except` value supplied by the environment.
-/

namespace Opcode

/-! ## String containment (Python `needle in hay`) -/

/-- Whether the first character list is an initial segment of the second. -/
def isPrefOf : List Char → List Char → Bool
  | [], _ => true
  | _ :: _, [] => false
  | c :: cs, d :: ds => c == d && isPrefOf cs ds

/-- Whether `n` occurs as a contiguous segment of `h`. -/
def subAt (n : List Char) : List Char → Bool
  | [] => isPrefOf n []
  | d :: ds => isPrefOf n (d :: ds) || subAt n ds

/-- Python `needle in hay` on strings. -/
def strContains (hay needle : String) : Bool :=
  subAt needle.data hay.data

theorem isPrefOf_self_append (n b : List Char) : isPrefOf n (n ++ b) = true := by
  induction n with
  | nil => simp [isPrefOf]
  | cons c cs ih => simp [isPrefOf, ih]

theorem subAt_append_left (n a h : List Char) (hh : subAt n h = true) :
    subAt n (a ++ h) = true := by
  induction a with
  | nil => simpa using hh
  | cons x xs ih => simp [subAt, ih]

theorem subAt_self_append (n b : List Char) : subAt n (n ++ b) = true := by
  cases n with
  | nil =>
    cases b with
    | nil => rfl
    | cons d ds => simp [subAt, isPrefOf]
  | cons c cs =>
    simpa [subAt] using Or.inl (isPrefOf_self_append (c :: cs) b)

theorem strdata_append (a b : String) : (a ++ b).data = a.data ++ b.data := rfl

/-- Python `s.startswith(p)`. -/
def pyStartsWith (s p : String) : Bool := isPrefOf p.data s.data

/-- Python `s.strip()`: drop leading and trailing whitespace. -/
def pyStrip (s : String) : String :=
  ⟨((s.data.dropWhile Char.isWhitespace).reverse.dropWhile Char.isWhitespace).reverse⟩

/-- Python `s.upper()` (ASCII). -/
def pyUpper (s : String) : String := ⟨s.data.map Char.toUpper⟩

/-- Python `s.lower()` (ASCII). -/
def pyLower (s : String) : String := ⟨s.data.map Char.toLower⟩

theorem strContains_mid (a m b : String) : strContains (a ++ m ++ b) m = true := by
  have h1 : subAt m.data (m.data ++ b.data) = true := subAt_self_append m.data b.data
  have h2 : subAt m.data (a.data ++ (m.data ++ b.data)) = true :=
    subAt_append_left m.data a.data (m.data ++ b.data) h1
  simpa [strContains, strdata_append, List.append_assoc] using h2

/-! ## JSON-ish primitive values and dictionaries -/

/-- Primitive JSON values appearing in the documents this system writes. -/
inductive Prim where
  | null
  | bool (b : Bool)
  | str (s : String)
  | num (n : Int)
deriving DecidableEq

/-- A flat JSON object: association list with unique keys. -/
abbrev PDict := List (String × Prim)

/-- Source `d.get(k)` on a dictionary. -/
def getKey {α : Type} (d : List (String × α)) (k : String) : Option α :=
  match d with
  | [] => none
  | (k2, v) :: rest => if k2 = k then some v else getKey rest k

/-- Source `d[k] = v` on a dictionary: replace the binding in place or append. -/
def setKey {α : Type} (d : List (String × α)) (k : String) (v : α) :
    List (String × α) :=
  match d with
  | [] => [(k, v)]
  | (k2, w) :: rest => if k2 = k then (k, v) :: rest else (k2, w) :: setKey rest k v

/-- Drop a key from a dictionary. -/
def eraseKey {α : Type} (d : List (String × α)) (k : String) :
    List (String × α) :=
  d.filter (fun p => decide (p.1 ≠ k))

theorem getKey_setKey_self {α : Type} (d : List (String × α)) (k : String) (v : α) :
    getKey (setKey d k v) k = some v := by
  induction d with
  | nil => simp [setKey, getKey]
  | cons p rest ih =>
    by_cases h : p.1 = k
    · simp [setKey, getKey, h]
    · simp [setKey, getKey, h, ih]

theorem getKey_setKey_ne {α : Type} (d : List (String × α)) (k k2 : String) (v : α)
    (h : k2 ≠ k) : getKey (setKey d k v) k2 = getKey d k2 := by
  have h2 : ¬k = k2 := fun e => h e.symm
  induction d with
  | nil => simp [setKey, getKey, h2]
  | cons p rest ih =>
    by_cases hp : p.1 = k
    · simp [setKey, getKey, hp, h2]
    · by_cases hq : p.1 = k2
      · simp [setKey, getKey, hp, hq, h]
      · simp [setKey, getKey, hp, hq, ih]

theorem eraseKey_setKey {α : Type} (d : List (String × α)) (k : String) (v : α) :
    eraseKey (setKey d k v) k = eraseKey d k := by
  induction d with
  | nil => simp [setKey, eraseKey]
  | cons p rest ih =>
    by_cases hp : p.1 = k
    · simp [setKey, eraseKey, hp, List.filter]
    · simpa [setKey, eraseKey, hp, List.filter] using ih

/-! ## Approval decision engine (`hooks/approval-hook.py`) -/

/-- Tool input dictionary; the fields this hook reads are strings. -/
abbrev ToolInput := List (String × String)

/-- The `hookSpecificOutput` decision payload. -/
structure Decision where
  permissionDecision : String
  reason : String
deriving DecidableEq

/-- Fixed always-safe core tool names. -/
def core_claude_tools : List String :=
  ["TodoWrite", "Task", "Skill", "SlashCommand", "AskUserQuestion", "ExitPlanMode"]

/-- Fixed safe temporary-directory targets for Write/Edit. -/
def safe_temp_dirs : List String := ["/tmp/", "/var/tmp/", "/private/tmp/"]

/-- Source `is_safe_operation` from `approval-hook.py`. -/
def is_safe_operation (tool_name : String) (tool_input : ToolInput)
    (cwd : String) : Bool × String :=
  if tool_name = "Read" then (true, "Read operation - safe (read-only)")
  else if tool_name = "Grep" then (true, "Grep operation - safe (read-only)")
  else if tool_name = "Glob" then (true, "Glob operation - safe (read-only)")
  else if tool_name ∈ core_claude_tools then
    (true, tool_name ++ " - core Claude Code tool (safe)")
  else if tool_name = "Write" ∨ tool_name = "Edit" then
    let file_path := (getKey tool_input "file_path").getD ""
    if safe_temp_dirs.any (fun d => pyStartsWith file_path d) then
      (true, "Write to temporary directory - safe (" ++ file_path ++ ")")
    else
      (false, "Operation requires review")
  else
    (false, "Operation requires review")

/-- Tokens the judge may answer with. -/
def valid_judge_tokens : List String := ["ALLOW", "DENY", "ASK"]

/-- Source `judge_with_grok`: the LLM interaction is either an exception or the raw
response text; any failure or unrecognized response yields "ask". -/
def judge_with_grok (resp : Except String String) : String :=
  match resp with
  | .error _ => "ask"
  | .ok r =>
    let response := pyUpper (pyStrip r)
    if response ∈ valid_judge_tokens then pyLower response else "ask"

/-- The mode dispatch of `main` in `approval-hook.py` (lines 139-210), with the
approval mode already fetched.  `none` models `disabled` (exit with no output). -/
def decide_with_mode (approval_mode tool_name : String) (tool_input : ToolInput)
    (cwd : String) (judgeResp : Except String String) : Option Decision :=
  if approval_mode = "disabled" then none
  else if approval_mode = "strict" then
    some ⟨"ask", "Strict mode: Manual approval required for all operations"⟩
  else if approval_mode = "auto" then
    some ⟨"allow", "Auto mode: Bypassing all permission checks"⟩
  else if approval_mode = "ai" then
    let safe := is_safe_operation tool_name tool_input cwd
    if safe.1 then
      some ⟨"allow", "AI mode: " ++ safe.2 ++ " (bypassing Grok)"⟩
    else
      let decision := judge_with_grok judgeResp
      let reason :=
        if decision = "allow" then
          "Grok judged this " ++ tool_name ++ " operation as safe - auto-approved"
        else if decision = "deny" then
          "Grok judged this " ++ tool_name ++ " operation as dangerous - blocked"
        else if decision = "ask" then
          "Grok needs user input to judge this " ++ tool_name ++ " operation"
        else "Unknown"
      some ⟨decision, reason⟩
  else
    some ⟨"ask",
      "Unknown approval mode \x27" ++ approval_mode ++ "\x27 - defaulting to ask"⟩

/-- C1: for every tool name, tool input, working directory and judge outcome,
mode `auto` yields decision `allow`; mode `strict` yields `ask`; and any mode
outside `{ai, auto, strict, disabled}` yields `ask` with a reason string that
names (contains) the unrecognized mode. -/
theorem C1_mode_dispatch (tool_name : String) (tool_input : ToolInput)
    (cwd : String) (judgeResp : Except String String) (mode : String) :
    (decide_with_mode "auto" tool_name tool_input cwd judgeResp).map
        Decision.permissionDecision = some "allow"
    ∧ (decide_with_mode "strict" tool_name tool_input cwd judgeResp).map
        Decision.permissionDecision = some "ask"
    ∧ (mode ∉ (["ai", "auto", "strict", "disabled"] : List String) →
        decide_with_mode mode tool_name tool_input cwd judgeResp =
          some ⟨"ask",
            "Unknown approval mode \x27" ++ mode ++ "\x27 - defaulting to ask"⟩
        ∧ strContains
            ("Unknown approval mode \x27" ++ mode ++ "\x27 - defaulting to ask")
            mode = true) := by
  refine ⟨rfl, rfl, fun h => ⟨?_, strContains_mid _ _ _⟩⟩
  simp only [List.mem_cons, List.not_mem_nil, or_false, not_or] at h
  obtain ⟨h1, h2, h3, h4⟩ := h
  simp [decide_with_mode, h1, h2, h3, h4]

/-- Witness for C1 at mode "yolo", tool "Bash". -/
theorem C1_mode_dispatch_witness :
    decide_with_mode "yolo" "Bash" [] "" (Except.ok "x") =
      some ⟨"ask", "Unknown approval mode \x27" ++ "yolo" ++ "\x27 - defaulting to ask"⟩
    ∧ strContains
        ("Unknown approval mode \x27" ++ "yolo" ++ "\x27 - defaulting to ask")
        "yolo" = true :=
  (C1_mode_dispatch "Bash" [] "" (Except.ok "x") "yolo").2.2 (by decide)

/-- C2: in mode `ai`, a read-only tool (Read/Grep/Glob), a fixed core tool, or a
Write/Edit whose file_path starts with one of the safe temporary prefixes, is
allowed and the result does not depend on the judge. -/
theorem C2_safe_rules_allow (tool_name : String) (tool_input : ToolInput)
    (cwd : String) (j1 j2 : Except String String)
    (h : tool_name ∈ (["Read", "Grep", "Glob"] : List String)
      ∨ tool_name ∈ core_claude_tools
      ∨ ((tool_name = "Write" ∨ tool_name = "Edit")
          ∧ (pyStartsWith ((getKey tool_input "file_path").getD "") "/tmp/" = true
            ∨ pyStartsWith ((getKey tool_input "file_path").getD "") "/var/tmp/" = true
            ∨ pyStartsWith ((getKey tool_input "file_path").getD "") "/private/tmp/" = true))) :
    (decide_with_mode "ai" tool_name tool_input cwd j1).map
        Decision.permissionDecision = some "allow"
    ∧ decide_with_mode "ai" tool_name tool_input cwd j1 =
        decide_with_mode "ai" tool_name tool_input cwd j2 := by
  have hs : (is_safe_operation tool_name tool_input cwd).1 = true := by
    rcases h with h | h | ⟨hwe, hfp⟩
    · simp only [List.mem_cons, List.not_mem_nil, or_false] at h
      rcases h with rfl | rfl | rfl <;> rfl
    · simp only [core_claude_tools, List.mem_cons, List.not_mem_nil, or_false] at h
      rcases h with rfl | rfl | rfl | rfl | rfl | rfl <;> rfl
    · have hany : safe_temp_dirs.any
          (fun d => pyStartsWith ((getKey tool_input "file_path").getD "") d) = true := by
        rcases hfp with hfp | hfp | hfp <;> simp [safe_temp_dirs, hfp]
      rcases hwe with rfl | rfl <;> simp [is_safe_operation, core_claude_tools, hany]
  constructor
  · simp [decide_with_mode, hs]
  · simp [decide_with_mode, hs]

/-- Witness for C2: Write to /tmp/x.txt with two different judge behaviors. -/
theorem C2_safe_rules_allow_witness :
    (decide_with_mode "ai" "Write" [("file_path", "/tmp/x.txt")] ""
        (Except.ok "DENY")).map Decision.permissionDecision = some "allow"
    ∧ decide_with_mode "ai" "Write" [("file_path", "/tmp/x.txt")] ""
        (Except.ok "DENY") =
      decide_with_mode "ai" "Write" [("file_path", "/tmp/x.txt")] ""
        (Except.error "network down") :=
  C2_safe_rules_allow "Write" [("file_path", "/tmp/x.txt")] ""
    (Except.ok "DENY") (Except.error "network down")
    (Or.inr (Or.inr ⟨Or.inl rfl, Or.inl (by decide)⟩))

/-- C3: the judging step returns "ask" whenever the collaborator raises, and
whenever the stripped upper-cased response is none of ALLOW/DENY/ASK. -/
theorem C3_judge_failsafe (e s : String) :
    judge_with_grok (Except.error e) = "ask"
    ∧ (pyUpper (pyStrip s) ≠ "ALLOW" → pyUpper (pyStrip s) ≠ "DENY" →
        pyUpper (pyStrip s) ≠ "ASK" → judge_with_grok (Except.ok s) = "ask") := by
  refine ⟨rfl, fun h1 h2 h3 => ?_⟩
  simp [judge_with_grok, valid_judge_tokens, h1, h2, h3]

/-- Witness for C3 at the response " maybe ". -/
theorem C3_judge_failsafe_witness :
    judge_with_grok (Except.error "boom") = "ask"
    ∧ judge_with_grok (Except.ok " maybe ") = "ask" := by
  have h := C3_judge_failsafe "boom" " maybe "
  exact ⟨h.1, h.2 (by decide) (by decide) (by decide)⟩

/-! ## Per-session settings store (`hooks/session_settings.py`) -/

/-- A settings document value: a primitive or a nested flat object
(`hooks_enabled` and `metadata` are the nested objects this system writes). -/
inductive SVal where
  | prim (p : Prim)
  | dict (d : PDict)
deriving DecidableEq

/-- A settings document: one JSON object per session. -/
abbrev SettingsDoc := List (String × SVal)

/-- A settings file on disk: parseable JSON or corrupted content. -/
inductive FileContent where
  | ok (doc : SettingsDoc)
  | corrupt
deriving DecidableEq

/-- The settings directory, one file per session id. -/
abbrev SettingsFS := List (String × FileContent)

/-- Source `get_default_settings`; `created_at` stands for the wall-clock string
`datetime.utcnow().isoformat() + "Z"`. -/
def get_default_settings (session_id created_at : String) : SettingsDoc :=
  [("session_id", .prim (.str session_id)),
   ("created_at", .prim (.str created_at)),
   ("hooks_enabled", .dict
      [("stop-hook", .bool true), ("notification-hook", .bool true),
       ("session-start", .bool true), ("session-end", .bool true)]),
   ("metadata", .dict [("approval_mode", .str "ai")])]

/-- Source `save_settings`: stamp `updated_at`, persist.  The in-place mutation of the
caller's dict is modelled by returning the stamped document; a falsy session id
is a no-op. -/
def save_settings (session_id : String) (settings : SettingsDoc) (now : String)
    (fs : SettingsFS) : SettingsDoc × SettingsFS :=
  if session_id = "" then (settings, fs)
  else
    let stamped := setKey settings "updated_at" (.prim (.str now))
    (stamped, setKey fs session_id (.ok stamped))

/-- Source `load_settings`: a parseable file is returned as-is; a corrupted file
yields fresh defaults without touching disk; a missing file creates and
persists stamped defaults. -/
def load_settings (session_id : String) (now : String) (fs : SettingsFS) :
    SettingsDoc × SettingsFS :=
  if session_id = "" then (get_default_settings "unknown" now, fs)
  else
    match getKey fs session_id with
    | some (.ok doc) => (doc, fs)
    | some .corrupt => (get_default_settings session_id now, fs)
    | none => save_settings session_id (get_default_settings session_id now) now fs

/-- Source `settings.get("metadata", {}).get(key)` when `metadata` is an object. -/
def metaGet (doc : SettingsDoc) (k : String) : Option Prim :=
  match getKey doc "metadata" with
  | some (.dict m) => getKey m k
  | _ => none

/-- Source `settings.get("hooks_enabled", {}).get(h)` when `hooks_enabled` is an
object. -/
def hookFlag (doc : SettingsDoc) (h : String) : Option Prim :=
  match getKey doc "hooks_enabled" with
  | some (.dict m) => getKey m h
  | _ => none

/-- C8: for every non-empty session id and settings document, `save_settings`
followed by `load_settings` returns the saved document with every field intact
except `updated_at`, which is refreshed to the save time. -/
theorem C8_save_load_roundtrip (session_id : String) (settings : SettingsDoc)
    (now : String) (fs : SettingsFS) (h : session_id ≠ "") :
    (load_settings session_id now (save_settings session_id settings now fs).2).1 =
      setKey settings "updated_at" (.prim (.str now))
    ∧ (∀ k, k ≠ "updated_at" →
        getKey (load_settings session_id now
          (save_settings session_id settings now fs).2).1 k = getKey settings k)
    ∧ getKey (load_settings session_id now
        (save_settings session_id settings now fs).2).1 "updated_at"
        = some (.prim (.str now)) := by
  have hload : (load_settings session_id now
      (save_settings session_id settings now fs).2).1 =
      setKey settings "updated_at" (.prim (.str now)) := by
    simp [save_settings, load_settings, h, getKey_setKey_self]
  refine ⟨hload, fun k hk => ?_, ?_⟩
  · rw [hload]; exact getKey_setKey_ne _ _ _ _ hk
  · rw [hload]; exact getKey_setKey_self _ _ _

/-- Witness for C8 on a one-field document. -/
theorem C8_save_load_roundtrip_witness :
    (load_settings "s1" "T1"
        (save_settings "s1" [("a", SVal.prim (.num 1))] "T1" []).2).1 =
      setKey [("a", SVal.prim (.num 1))] "updated_at" (.prim (.str "T1"))
    ∧ (∀ k, k ≠ "updated_at" →
        getKey (load_settings "s1" "T1"
          (save_settings "s1" [("a", SVal.prim (.num 1))] "T1" []).2).1 k
          = getKey [("a", SVal.prim (.num 1))] k)
    ∧ getKey (load_settings "s1" "T1"
        (save_settings "s1" [("a", SVal.prim (.num 1))] "T1" []).2).1 "updated_at"
        = some (.prim (.str "T1")) :=
  C8_save_load_roundtrip "s1" [("a", SVal.prim (.num 1))] "T1" [] (by decide)

/-- A parseable settings document that lacks the `approval_mode` key. -/
def c9doc : SettingsDoc := [("session_id", SVal.prim (.str "s"))]

/-- Counterexample to C9: a settings document that parses but lacks the
`approval_mode` key is returned as-is by `load_settings`, not regenerated. -/
theorem C9_counterexample :
    (load_settings "s" "T" [("s", FileContent.ok c9doc)]).1 = c9doc
    ∧ metaGet (load_settings "s" "T" [("s", FileContent.ok c9doc)]).1
        "approval_mode" = none := by
  constructor <;> rfl

/-- C9 amended: a missing file is created on disk and yields defaults with
approval mode "ai" and all four hooks enabled; a corrupted file yields fresh
defaults; but a document that parses is returned as-is, even without the
`approval_mode` key. -/
theorem C9_selfheal_amended (session_id now : String) (fs : SettingsFS)
    (h : session_id ≠ "") :
    (getKey fs session_id = none →
      getKey (load_settings session_id now fs).2 session_id
          = some (.ok (load_settings session_id now fs).1)
      ∧ metaGet (load_settings session_id now fs).1 "approval_mode"
          = some (.str "ai")
      ∧ hookFlag (load_settings session_id now fs).1 "stop-hook" = some (.bool true)
      ∧ hookFlag (load_settings session_id now fs).1 "notification-hook"
          = some (.bool true)
      ∧ hookFlag (load_settings session_id now fs).1 "session-start"
          = some (.bool true)
      ∧ hookFlag (load_settings session_id now fs).1 "session-end"
          = some (.bool true))
    ∧ (getKey fs session_id = some .corrupt →
        load_settings session_id now fs = (get_default_settings session_id now, fs)
        ∧ metaGet (get_default_settings session_id now) "approval_mode"
            = some (.str "ai"))
    ∧ (∀ d, getKey fs session_id = some (.ok d) →
        load_settings session_id now fs = (d, fs)) := by
  refine ⟨fun hn => ?_, fun hc => ?_, fun d hd => ?_⟩
  · simp [load_settings, save_settings, h, hn, get_default_settings, setKey,
      getKey, metaGet, hookFlag, getKey_setKey_self]
  · simp [load_settings, h, hc, get_default_settings, metaGet, getKey]
  · simp [load_settings, h, hd]

/-- Witness for C9 (amended) on an empty settings directory. -/
theorem C9_selfheal_amended_witness :
    getKey (load_settings "w9" "T9" []).2 "w9"
        = some (.ok (load_settings "w9" "T9" []).1)
    ∧ metaGet (load_settings "w9" "T9" []).1 "approval_mode" = some (.str "ai")
    ∧ hookFlag (load_settings "w9" "T9" []).1 "stop-hook" = some (.bool true)
    ∧ hookFlag (load_settings "w9" "T9" []).1 "notification-hook" = some (.bool true)
    ∧ hookFlag (load_settings "w9" "T9" []).1 "session-start" = some (.bool true)
    ∧ hookFlag (load_settings "w9" "T9" []).1 "session-end" = some (.bool true) :=
  (C9_selfheal_amended "w9" "T9" [] (by decide)).1 rfl

/-! ## Session registry (`hooks/hook_utils.py`) -/

/-- The registry document: `{"sessions": [...], "last_updated": ...}`.
Timestamps are opaque `Int` ticks. -/
structure RegDoc where
  sessions : List PDict
  last_updated : Option Int
deriving DecidableEq

/-- Source `read_sessions` on a missing file. -/
def emptyRegistry : RegDoc := ⟨[], none⟩

/-- Source `s.get("session_id")` of a session record. -/
def getSid (r : PDict) : Option Prim := getKey r "session_id"

/-- Source `add_session`: drop any record with the same session id, append the new
record, refresh `last_updated`. -/
def add_session (s : PDict) (now : Int) (doc : RegDoc) : RegDoc :=
  { sessions := doc.sessions.filter (fun r => decide (getSid r ≠ getSid s)) ++ [s],
    last_updated := some now }

/-- Source `remove_session`: filter the record out, refresh `last_updated`. -/
def remove_session (session_id : String) (now : Int) (doc : RegDoc) : RegDoc :=
  { sessions := doc.sessions.filter
      (fun r => decide (getSid r ≠ some (.str session_id))),
    last_updated := some now }

/-- A sequence of `add_session` calls (argument, timestamp). -/
def applyAdds : List (PDict × Int) → RegDoc → RegDoc
  | [], doc => doc
  | c :: rest, doc => applyAdds rest (add_session c.1 c.2 doc)

/-- The argument of the last call in the sequence whose record carries the
session id `v`. -/
def lastArgWith (v : Option Prim) : List (PDict × Int) → Option PDict
  | [] => none
  | c :: rest =>
    match lastArgWith v rest with
    | some s => some s
    | none => if getSid c.1 = v then some c.1 else none

theorem filter_and_not_self (l : List PDict) (v : Option Prim) :
    l.filter (fun a => decide (getSid a = v) && !decide (getSid a = v)) = [] := by
  induction l with
  | nil => rfl
  | cons r rest ih =>
    by_cases hr : getSid r = v <;> simp [List.filter_cons, hr, ih]

theorem filter_and_ne (l : List PDict) (u v : Option Prim) (h : u ≠ v) :
    l.filter (fun a => decide (getSid a = v) && !decide (getSid a = u)) =
      l.filter (fun a => decide (getSid a = v)) := by
  have hvu : ¬v = u := fun e => h e.symm
  induction l with
  | nil => rfl
  | cons r rest ih =>
    by_cases hr : getSid r = v
    · have hru : ¬getSid r = u := by rw [hr]; exact hvu
      simp [List.filter_cons, hr, hru, hvu, ih]
    · simp [List.filter_cons, hr, ih]

theorem add_session_filter (c : PDict) (t : Int) (doc : RegDoc) (v : Option Prim) :
    (add_session c t doc).sessions.filter (fun r => decide (getSid r = v)) =
      if getSid c = v then [c]
      else doc.sessions.filter (fun r => decide (getSid r = v)) := by
  by_cases hc : getSid c = v
  · subst hc
    simp [add_session, List.filter_append, List.filter_filter, List.filter_cons,
      filter_and_not_self]
  · simp [add_session, List.filter_append, List.filter_filter, List.filter_cons,
      hc, filter_and_ne doc.sessions (getSid c) v hc]

theorem applyAdds_filter (calls : List (PDict × Int)) (doc : RegDoc)
    (v : Option Prim) :
    (applyAdds calls doc).sessions.filter (fun r => decide (getSid r = v)) =
      match lastArgWith v calls with
      | some s => [s]
      | none => doc.sessions.filter (fun r => decide (getSid r = v)) := by
  induction calls generalizing doc with
  | nil => rfl
  | cons c rest ih =>
    show (applyAdds rest (add_session c.1 c.2 doc)).sessions.filter _ = _
    rw [ih]
    cases hrest : lastArgWith v rest with
    | some s => simp [lastArgWith, hrest]
    | none =>
      rw [add_session_filter]
      by_cases hc : getSid c.1 = v <;> simp [lastArgWith, hrest, hc]

/-- C7: after any sequence of `add_session` calls on the empty registry, each
session id present among the calls owns exactly one record, equal to the last
call argument carrying that id; and a single `add_session` preserves the
at-most-one-record-per-id invariant. -/
theorem C7_registry_upsert (calls : List (PDict × Int)) (v : Option Prim) :
    ((applyAdds calls emptyRegistry).sessions.filter
        (fun r => decide (getSid r = v)) =
      match lastArgWith v calls with
      | some s => [s]
      | none => [])
    ∧ (∀ (doc : RegDoc) (s : PDict) (now : Int) (w : Option Prim),
        (doc.sessions.filter (fun r => decide (getSid r = w))).length ≤ 1 →
        ((add_session s now doc).sessions.filter
            (fun r => decide (getSid r = w))).length ≤ 1) := by
  constructor
  · rw [applyAdds_filter]
    cases lastArgWith v calls <;> simp [emptyRegistry]
  · intro doc s now w hw
    rw [add_session_filter]
    by_cases hs : getSid s = w
    · simp [hs]
    · simpa [hs] using hw

/-- Witness for C7: two adds with the same id, one with another id. -/
theorem C7_registry_upsert_witness :
    ((applyAdds
        [([("session_id", Prim.str "a"), ("cwd", Prim.str "/one")], 1),
         ([("session_id", Prim.str "b")], 2),
         ([("session_id", Prim.str "a"), ("cwd", Prim.str "/two")], 3)]
        emptyRegistry).sessions.filter
        (fun r => decide (getSid r = some (Prim.str "a"))) =
      match lastArgWith (some (Prim.str "a"))
        [([("session_id", Prim.str "a"), ("cwd", Prim.str "/one")], 1),
         ([("session_id", Prim.str "b")], 2),
         ([("session_id", Prim.str "a"), ("cwd", Prim.str "/two")], 3)] with
      | some s => [s]
      | none => [])
    ∧ ((add_session [("session_id", Prim.str "a")] 4 emptyRegistry).sessions.filter
        (fun r => decide (getSid r = some (Prim.str "a")))).length ≤ 1 :=
  ⟨(C7_registry_upsert
      [([("session_id", Prim.str "a"), ("cwd", Prim.str "/one")], 1),
       ([("session_id", Prim.str "b")], 2),
       ([("session_id", Prim.str "a"), ("cwd", Prim.str "/two")], 3)]
      (some (Prim.str "a"))).1,
   (C7_registry_upsert [] (some (Prim.str "a"))).2 emptyRegistry
     [("session_id", Prim.str "a")] 4 (some (Prim.str "a")) (by decide)⟩

/-! ## Full approval hook pipeline (`main` of `hooks/approval-hook.py`) -/

/-- Python `str()` rendering of a primitive (used when a non-string value
reaches the unknown-mode reason). -/
def primDisplay : Prim → String
  | .null => "None"
  | .bool true => "True"
  | .bool false => "False"
  | .str s => s
  | .num n => toString n

/-- Source `get_metadata(session_id, "approval_mode", "ai")` applied to a loaded
document.  A `metadata` entry that is not an object makes `.get` raise, which
the hook's catch-all converts into an `ask` decision. -/
def approvalModeOf (doc : SettingsDoc) : Except Unit String :=
  match getKey doc "metadata" with
  | some (.dict m) =>
    match getKey m "approval_mode" with
    | some (.str s) => .ok s
    | some p => .ok (primDisplay p)
    | none => .ok "ai"
  | some (.prim _) => .error ()
  | none => .ok "ai"

/-- The whole approval hook run over the world state: load the session's
settings (which may create a missing file), dispatch on the approval mode, and
return the decision together with the resulting settings store and registry. -/
def approvalMain (session_id tool_name : String) (tool_input : ToolInput)
    (cwd : String) (judgeResp : Except String String) (now : String)
    (fs : SettingsFS) (reg : RegDoc) : Option Decision × SettingsFS × RegDoc :=
  let loaded := load_settings session_id now fs
  let d :=
    match approvalModeOf loaded.1 with
    | .error _ => some (⟨"ask", "Hook error - defaulting to ask"⟩ : Decision)
    | .ok mode => decide_with_mode mode tool_name tool_input cwd judgeResp
  (d, loaded.2, reg)

/-- Counterexample to C4: on a session with no settings file, running the
approval pipeline changes the settings store on disk (a default file is
created), so its output is not only the returned decision. -/
theorem C4_counterexample :
    (approvalMain "s" "Bash" [] "" (Except.ok "ALLOW") "T" [] ⟨[], none⟩).2.1
      ≠ ([] : SettingsFS) := by
  decide

/-- C4 amended: the pipeline never touches the registry, never modifies any
existing settings document (other sessions' documents are untouched, and a
present — even corrupted — document of this session is left as-is), but when
the session has no settings document, loading creates a stamped default file. -/
theorem C4_frame_amended (session_id tool_name : String) (tool_input : ToolInput)
    (cwd : String) (judgeResp : Except String String) (now : String)
    (fs : SettingsFS) (reg : RegDoc) :
    (approvalMain session_id tool_name tool_input cwd judgeResp now fs reg).2.2
        = reg
    ∧ (∀ sid2, sid2 ≠ session_id →
        getKey (approvalMain session_id tool_name tool_input cwd judgeResp now
          fs reg).2.1 sid2 = getKey fs sid2)
    ∧ (∀ c, getKey fs session_id = some c →
        (approvalMain session_id tool_name tool_input cwd judgeResp now
          fs reg).2.1 = fs)
    ∧ (session_id = "" →
        (approvalMain session_id tool_name tool_input cwd judgeResp now
          fs reg).2.1 = fs)
    ∧ (session_id ≠ "" → getKey fs session_id = none →
        (approvalMain session_id tool_name tool_input cwd judgeResp now
          fs reg).2.1 =
          setKey fs session_id
            (.ok (setKey (get_default_settings session_id now) "updated_at"
              (.prim (.str now))))) := by
  have hfs : (approvalMain session_id tool_name tool_input cwd judgeResp now
      fs reg).2.1 = (load_settings session_id now fs).2 := rfl
  refine ⟨rfl, fun sid2 h2 => ?_, fun c hc => ?_, fun he => ?_, fun hne hn => ?_⟩
  · rw [hfs]
    by_cases he : session_id = ""
    · simp [load_settings, he]
    · cases hc : getKey fs session_id with
      | none => simp [load_settings, save_settings, he, hc, getKey_setKey_ne _ _ _ _ h2]
      | some c => cases c <;> simp [load_settings, he, hc]
  · rw [hfs]
    by_cases he : session_id = ""
    · simp [load_settings, he]
    · cases c <;> simp [load_settings, he, hc]
  · rw [hfs]; simp [load_settings, he]
  · rw [hfs]; simp [load_settings, save_settings, hne, hn]

/-- Witness for C4 (amended) with an existing document for "s" and a second
session "t". -/
theorem C4_frame_amended_witness :
    (approvalMain "s" "Bash" [] "/w" (Except.ok "ALLOW") "T"
        [("s", FileContent.corrupt)] ⟨[], none⟩).2.2 = ⟨[], none⟩
    ∧ getKey (approvalMain "s" "Bash" [] "/w" (Except.ok "ALLOW") "T"
        [("s", FileContent.corrupt)] ⟨[], none⟩).2.1 "t"
        = getKey [("s", FileContent.corrupt)] "t"
    ∧ (approvalMain "s" "Bash" [] "/w" (Except.ok "ALLOW") "T"
        [("s", FileContent.corrupt)] ⟨[], none⟩).2.1
        = [("s", FileContent.corrupt)] := by
  have h := C4_frame_amended "s" "Bash" [] "/w" (Except.ok "ALLOW") "T"
    [("s", FileContent.corrupt)] ⟨[], none⟩
  exact ⟨h.1, h.2.1 "t" (by decide), h.2.2.1 FileContent.corrupt (by decide)⟩

/-! ## Notification hook (`hooks/notification-hook.py`) and `update_session` -/

/-- Source `dict.update(updates)` applied to a session record. -/
def dictUpdate (r : PDict) (u : List (String × Prim)) : PDict :=
  u.foldl (fun d p => setKey d p.1 p.2) r

/-- The registry loop of `update_session`: merge the update into the first
record whose `session_id` matches, leave the rest alone. -/
def updateFirst (session_id : String) (u : List (String × Prim)) :
    List PDict → List PDict
  | [] => []
  | r :: rest =>
    if getSid r = some (.str session_id) then dictUpdate r u :: rest
    else r :: updateFirst session_id u rest

/-- Source `update_session`: update the first matching record and refresh
`last_updated` regardless of whether a match was found. -/
def update_session (session_id : String) (u : List (String × Prim)) (now : Int)
    (doc : RegDoc) : RegDoc :=
  { sessions := updateFirst session_id u doc.sessions, last_updated := some now }

/-- The status classification of `notification-hook.py` `main`. -/
def statusOf (message : String) : String :=
  if strContains (pyLower message) "permission" = true then "needs_permission"
  else if strContains (pyLower message) "waiting for your input" = true
      ∨ strContains (pyLower message) "idle" = true then "waiting_for_input"
  else "running"

/-- The fields written by the notification hook in its single
`update_session` call. -/
def notifUpdates (message : String) (now : Int) : List (String × Prim) :=
  [("status", .str (statusOf message)),
   ("last_activity", .num now),
   ("last_notification", .str message)]

/-- Source `main` of `notification-hook.py`: a falsy session id skips; otherwise one
`update_session` call writes status, last_activity and last_notification. -/
def notificationMain (session_id message : String) (now : Int) (doc : RegDoc) :
    RegDoc :=
  if session_id = "" then doc
  else update_session session_id (notifUpdates message now) now doc

/-- First record whose `session_id` field is the given string. -/
def findRec (session_id : String) : List PDict → Option PDict
  | [] => none
  | r :: rest =>
    if getSid r = some (.str session_id) then some r
    else findRec session_id rest

theorem dictUpdate_notif_getKey (r : PDict) (message : String) (now : Int) :
    getKey (dictUpdate r (notifUpdates message now)) "status"
        = some (.str (statusOf message))
    ∧ getKey (dictUpdate r (notifUpdates message now)) "last_activity"
        = some (.num now)
    ∧ getKey (dictUpdate r (notifUpdates message now)) "last_notification"
        = some (.str message)
    ∧ getKey (dictUpdate r (notifUpdates message now)) "session_id"
        = getKey r "session_id" := by
  have hd : dictUpdate r (notifUpdates message now) =
      setKey (setKey (setKey r "status" (.str (statusOf message)))
        "last_activity" (.num now)) "last_notification" (.str message) := rfl
  refine ⟨?_, ?_, ?_, ?_⟩
  · rw [hd, getKey_setKey_ne _ _ _ _ (by decide), getKey_setKey_ne _ _ _ _ (by decide)]
    exact getKey_setKey_self _ _ _
  · rw [hd, getKey_setKey_ne _ _ _ _ (by decide)]
    exact getKey_setKey_self _ _ _
  · rw [hd]; exact getKey_setKey_self _ _ _
  · rw [hd, getKey_setKey_ne _ _ _ _ (by decide),
      getKey_setKey_ne _ _ _ _ (by decide), getKey_setKey_ne _ _ _ _ (by decide)]

theorem findRec_updateFirst (session_id : String) (u : List (String × Prim))
    (l : List PDict) (r : PDict)
    (hsid : getSid (dictUpdate r u) = getSid r)
    (hf : findRec session_id l = some r) :
    findRec session_id (updateFirst session_id u l) = some (dictUpdate r u) := by
  induction l with
  | nil => simp [findRec] at hf
  | cons x rest ih =>
    by_cases hx : getSid x = some (.str session_id)
    · have hr : x = r := by simpa [findRec, hx] using hf
      subst hr
      simp [findRec, updateFirst, hx, hsid]
    · have hf2 : findRec session_id rest = some r := by
        simpa [findRec, hx] using hf
      simp [findRec, updateFirst, hx, ih hf2]

theorem updateFirst_no_match (session_id : String) (u : List (String × Prim))
    (l : List PDict) (hf : findRec session_id l = none) :
    updateFirst session_id u l = l := by
  induction l with
  | nil => rfl
  | cons x rest ih =>
    by_cases hx : getSid x = some (.str session_id)
    · simp [findRec, hx] at hf
    · have hf2 : findRec session_id rest = none := by
        simpa [findRec, hx] using hf
      simp [updateFirst, hx, ih hf2]

/-- C10: for a non-empty session id, the notification hook performs one write
that refreshes `last_updated`, leaves the registry untouched when no record
matches, and otherwise rewrites the first matching record so that its status
is chosen from the lower-cased message — "permission" wins, then "waiting for
your input" or "idle", else "running" — while `last_activity` and
`last_notification` are set in the same record. -/
theorem C10_notification_status (session_id message : String) (now : Int)
    (doc : RegDoc) (h : session_id ≠ "") :
    (notificationMain session_id message now doc).last_updated = some now
    ∧ (findRec session_id doc.sessions = none →
        (notificationMain session_id message now doc).sessions = doc.sessions)
    ∧ (∀ r, findRec session_id doc.sessions = some r →
        findRec session_id (notificationMain session_id message now doc).sessions
          = some (dictUpdate r (notifUpdates message now))
        ∧ getKey (dictUpdate r (notifUpdates message now)) "status"
            = some (.str
              (if strContains (pyLower message) "permission" = true
                then "needs_permission"
                else if strContains (pyLower message) "waiting for your input" = true
                    ∨ strContains (pyLower message) "idle" = true
                  then "waiting_for_input"
                  else "running"))
        ∧ getKey (dictUpdate r (notifUpdates message now)) "last_activity"
            = some (.num now)
        ∧ getKey (dictUpdate r (notifUpdates message now)) "last_notification"
            = some (.str message)) := by
  have hmain : notificationMain session_id message now doc =
      update_session session_id (notifUpdates message now) now doc := by
    simp [notificationMain, h]
  refine ⟨?_, fun hn => ?_, fun r hr => ?_⟩
  · rw [hmain]; rfl
  · rw [hmain]
    exact updateFirst_no_match session_id (notifUpdates message now)
      doc.sessions hn
  · have hk := dictUpdate_notif_getKey r message now
    have hsid : getSid (dictUpdate r (notifUpdates message now)) = getSid r :=
      hk.2.2.2
    refine ⟨?_, hk.1, hk.2.1, hk.2.2.1⟩
    rw [hmain]
    exact findRec_updateFirst session_id (notifUpdates message now)
      doc.sessions r hsid hr

/-- Witness for C10 on a one-record registry and a permission message. -/
theorem C10_notification_status_witness :
    (notificationMain "n1" "Claude needs your permission to use Bash" 7
        ⟨[[("session_id", Prim.str "n1"), ("status", Prim.str "running")]], some 1⟩).last_updated
      = some 7
    ∧ findRec "n1" (notificationMain "n1" "Claude needs your permission to use Bash" 7
        ⟨[[("session_id", Prim.str "n1"), ("status", Prim.str "running")]], some 1⟩).sessions
      = some (dictUpdate [("session_id", Prim.str "n1"), ("status", Prim.str "running")]
          (notifUpdates "Claude needs your permission to use Bash" 7))
    ∧ getKey (dictUpdate [("session_id", Prim.str "n1"), ("status", Prim.str "running")]
          (notifUpdates "Claude needs your permission to use Bash" 7)) "status"
      = some (.str
          (if strContains (pyLower "Claude needs your permission to use Bash")
              "permission" = true
            then "needs_permission"
            else if strContains (pyLower "Claude needs your permission to use Bash")
                "waiting for your input" = true
                ∨ strContains (pyLower "Claude needs your permission to use Bash")
                  "idle" = true
              then "waiting_for_input"
              else "running")) := by
  have h := C10_notification_status "n1" "Claude needs your permission to use Bash" 7
    ⟨[[("session_id", Prim.str "n1"), ("status", Prim.str "running")]], some 1⟩
    (by decide)
  have h2 := h.2.2 [("session_id", Prim.str "n1"), ("status", Prim.str "running")]
    (by decide)
  exact ⟨h.1, h2.1, h2.2.1⟩

/-! ## Todo scanner (`parse_latest_todos` in `hooks/stop-hook.py`) -/

/-- One todo item of a TodoWrite payload. -/
structure Todo where
  content : Option String
  status : Option String
deriving DecidableEq

/-- A content block of a transcript message: the scanner reads tool results
(their `tool_use_id` and result text) and `TodoWrite` tool invocations
(their `id` and optional `todos` payload); everything else is opaque. -/
inductive Block where
  | tool_result (tool_use_id : Option String) (result_content : Option String)
  | tool_use (name : String) (tid : Option String) (todos : Option (List Todo))
  | other
deriving DecidableEq

/-- A transcript line: a parsed entry with its content blocks, or a line that
fails JSON decoding and is skipped. -/
inductive Line where
  | entry (blocks : List Block)
  | malformed
deriving DecidableEq

/-- An append-only JSONL transcript. -/
abbrev Transcript := List Line

/-- The fixed rejection phrase the first pass searches for. -/
def rejection_phrase : String := "doesn\x27t want to proceed"

/-- First pass, per block: a truthy result text containing the rejection
phrase together with a truthy tool_use_id marks that id rejected. -/
def blockRejectedId : Block → Option String
  | .tool_result (some tid) (some c) =>
    if c ≠ "" ∧ strContains c rejection_phrase = true ∧ tid ≠ "" then some tid
    else none
  | _ => none

/-- Rejected ids contributed by one line. -/
def lineRejectedIds : Line → List String
  | .malformed => []
  | .entry blocks => blocks.filterMap blockRejectedId

/-- First pass over the whole transcript. -/
def rejectedIds : Transcript → List String
  | [] => []
  | l :: rest => lineRejectedIds l ++ rejectedIds rest

/-- Source `tool_id not in rejected_tool_ids`, negated: a missing id is never in the
rejected set. -/
def idRejected (rej : List String) : Option String → Bool
  | some i => decide (i ∈ rej)
  | none => false

/-- Second pass, per block: a non-rejected TodoWrite with a present `todos`
payload (empty lists included) overwrites the accumulator. -/
def todoStep (rej : List String) (acc : Option (List Todo)) :
    Block → Option (List Todo)
  | .tool_use name tid todos =>
    if name = "TodoWrite" then
      if idRejected rej tid then acc
      else
        match todos with
        | some ts => some ts
        | none => acc
    else acc
  | _ => acc

/-- Second pass over one line. -/
def lineTodos (rej : List String) (acc : Option (List Todo)) :
    Line → Option (List Todo)
  | .malformed => acc
  | .entry blocks => blocks.foldl (todoStep rej) acc

/-- Second pass over the whole transcript. -/
def scanTodos (rej : List String) (acc : Option (List Todo)) :
    Transcript → Option (List Todo)
  | [] => acc
  | l :: rest => scanTodos rej (lineTodos rej acc l) rest

/-- Source `parse_latest_todos`: two passes; the last non-rejected TodoWrite payload
wins, or `none` when there is no such call. -/
def parse_latest_todos (t : Transcript) : Option (List Todo) :=
  scanTodos (rejectedIds t) none t

/-- Source `get_pending_todos`: a falsy todos value yields no pending items;
otherwise keep the `pending` and `in_progress` entries. -/
def get_pending_todos : Option (List Todo) → List Todo
  | none => []
  | some ts =>
    if ts.isEmpty then []
    else ts.filter (fun t =>
      decide (t.status = some "pending" ∨ t.status = some "in_progress"))

/-- A transcript line holding exactly one TodoWrite invocation. -/
def mkTodoWriteLine (tid : Option String) (todos : Option (List Todo)) : Line :=
  .entry [.tool_use "TodoWrite" tid todos]

theorem rejectedIds_append (a b : Transcript) :
    rejectedIds (a ++ b) = rejectedIds a ++ rejectedIds b := by
  induction a with
  | nil => rfl
  | cons l rest ih => simp [rejectedIds, ih]

theorem scanTodos_append (rej : List String) (acc : Option (List Todo))
    (a b : Transcript) :
    scanTodos rej acc (a ++ b) = scanTodos rej (scanTodos rej acc a) b := by
  induction a generalizing acc with
  | nil => rfl
  | cons l rest ih => simp [scanTodos, ih]

/-- C5: a TodoWrite whose id is marked rejected anywhere in the transcript
contributes nothing to the scan — the transcript with that call inserted scans
to the same result as the transcript without it; in particular, a single
TodoWrite followed by a tool result rejecting its id yields no todos. -/
theorem C5_rejected_todowrite_excluded :
    (∀ (pre post : Transcript) (X : String) (payload : Option (List Todo)),
      X ∈ rejectedIds (pre ++ post) →
      parse_latest_todos (pre ++ [mkTodoWriteLine (some X) payload] ++ post)
        = parse_latest_todos (pre ++ post))
    ∧ parse_latest_todos
        [mkTodoWriteLine (some "t1") (some [⟨some "A", some "pending"⟩]),
         .entry [.tool_result (some "t1")
           (some ("The user " ++ rejection_phrase ++ " with this tool use"))]]
        = none := by
  constructor
  · intro pre post X payload hX
    have hrej : rejectedIds (pre ++ [mkTodoWriteLine (some X) payload] ++ post)
        = rejectedIds (pre ++ post) := by
      simp [rejectedIds_append, rejectedIds, lineRejectedIds, mkTodoWriteLine,
        blockRejectedId]
    unfold parse_latest_todos
    rw [hrej]
    simp only [scanTodos_append]
    have h2 : scanTodos (rejectedIds (pre ++ post))
        (scanTodos (rejectedIds (pre ++ post)) none pre)
        [mkTodoWriteLine (some X) payload]
        = scanTodos (rejectedIds (pre ++ post)) none pre := by
      simp [scanTodos, lineTodos, mkTodoWriteLine, todoStep, idRejected, hX]
    rw [h2]
  · rfl

/-- Witness for C5: insert a rejected TodoWrite before the rejecting result. -/
theorem C5_rejected_todowrite_excluded_witness :
    parse_latest_todos
        ([.entry [.tool_result (some "t1") (some rejection_phrase)]]
          ++ [mkTodoWriteLine (some "t1") (some [⟨some "A", some "pending"⟩])]
          ++ [])
      = parse_latest_todos
          ([.entry [.tool_result (some "t1") (some rejection_phrase)]] ++ []) :=
  C5_rejected_todowrite_excluded.1
    [.entry [.tool_result (some "t1") (some rejection_phrase)]] [] "t1"
    (some [⟨some "A", some "pending"⟩]) (by decide)

/-- C6: when the transcript holds two non-rejected TodoWrite calls and the
later one carries an explicitly empty todos list, the scan result is that
empty list, and `get_pending_todos` of it is empty — clearing wins over the
earlier non-empty payload. -/
theorem C6_empty_payload_overwrites (pre mid : Transcript) (Y X : String)
    (ts : List Todo)
    (hY : Y ∉ rejectedIds (pre ++ [mkTodoWriteLine (some Y) (some ts)] ++ mid
      ++ [mkTodoWriteLine (some X) (some [])]))
    (hX : X ∉ rejectedIds (pre ++ [mkTodoWriteLine (some Y) (some ts)] ++ mid
      ++ [mkTodoWriteLine (some X) (some [])])) :
    parse_latest_todos (pre ++ [mkTodoWriteLine (some Y) (some ts)] ++ mid
        ++ [mkTodoWriteLine (some X) (some [])]) = some []
    ∧ get_pending_todos (parse_latest_todos (pre ++ [mkTodoWriteLine (some Y)
        (some ts)] ++ mid ++ [mkTodoWriteLine (some X) (some [])])) = [] := by
  have hparse : parse_latest_todos (pre ++ [mkTodoWriteLine (some Y) (some ts)]
      ++ mid ++ [mkTodoWriteLine (some X) (some [])]) = some [] := by
    unfold parse_latest_todos
    set R := rejectedIds (pre ++ [mkTodoWriteLine (some Y) (some ts)] ++ mid
      ++ [mkTodoWriteLine (some X) (some [])]) with hR
    have hX2 : X ∉ R := by rw [hR]; exact hX
    have hfalse : idRejected R (some X) = false := by simp [idRejected, hX2]
    simp only [scanTodos_append]
    simp [scanTodos, lineTodos, mkTodoWriteLine, todoStep, hfalse]
  exact ⟨hparse, by rw [hparse]; rfl⟩

/-- Witness for C6: a pending item, then an explicit clearing call. -/
theorem C6_empty_payload_overwrites_witness :
    parse_latest_todos ([] ++ [mkTodoWriteLine (some "a")
        (some [⟨some "A", some "pending"⟩])] ++ []
        ++ [mkTodoWriteLine (some "b") (some [])]) = some []
    ∧ get_pending_todos (parse_latest_todos ([] ++ [mkTodoWriteLine (some "a")
        (some [⟨some "A", some "pending"⟩])] ++ []
        ++ [mkTodoWriteLine (some "b") (some [])])) = [] :=
  C6_empty_payload_overwrites [] [] "a" "b" [⟨some "A", some "pending"⟩]
    (by decide) (by decide)

end Opcode
